import Mathlib

/-!
Verification development for the Task Orchestration & Verification-Gate Engine
(apps/backend/src/agents: orchestrator.py, subagent_manager.py, registry.py,
base_agent.py).

Modelling conventions:
* Workers and the IndependentVerifier are external collaborators.  Their
  behaviour is abstracted by an environment (`OrchestratorEnv`): the outcome
  of the worker call and of the verifier call on the n-th execution attempt.
  An `.err` outcome stands for a raised Python exception caught by the
  orchestrator; the orchestrator itself is modelled as a total function, so
  "the exception is never propagated" is inherent to the embedding.
* Wall-clock values (timestamps, uuid suffixes of agent ids, durations) do
  not influence control flow; they are replaced by constant strings or
  omitted.  `completed_at` is kept as an `Option` because claims distinguish
  set from unset.
* Python dicts that are only read through `.get` / `in` are modelled as
  association lists (`List (key × value)`) with `List.lookup`.
* The orchestrator's `while` loop in `OrchestratorAgent.run` increments
  `attempts` on every iteration (every reachable iteration has an assigned
  agent), so it performs at most `max_attempts` iterations; `runLoop` makes
  this explicit with a fuel argument that `runTask` instantiates with
  `max_attempts + 1`, which is proved sufficient in the theorems below.
-/

/-- Task status, orchestrator.py `TaskStatus`. -/
inductive TaskStatus where
  | pending
  | in_progress
  | awaiting_verification
  | verification_in_progress
  | verification_passed
  | verification_failed
  | completed
  | failed
  | blocked
  | escalated_to_human
deriving DecidableEq, Repr

/-- orchestrator.py `VerificationAttempt` (timestamp omitted: opaque wall clock). -/
structure VerificationAttempt where
  attempt_number : Nat
  verifier_id : String
  passed : Bool
  evidence_count : Nat
  failures : List String
deriving DecidableEq, Repr

/-- base_agent.py: one claimed output reported by a worker. -/
structure ClaimedOutput where
  type : String
  path : String
  description : String
deriving DecidableEq, Repr

/-- base_agent.py `TaskOutput`: the claimed-outputs report returned by a worker. -/
structure WorkerOutput where
  outputs : List ClaimedOutput
  completion_criteria : List (String × String)
deriving DecidableEq, Repr

/-- orchestrator.py `TaskState`.  `latest_verification` and the opaque
`result` payload are omitted: they do not influence the control flow of
`run` (the verdict that drives the state machine is recorded in
`verification_attempts`). -/
structure TaskState where
  task_id : String
  description : String
  status : TaskStatus
  assigned_agent : Option String
  assigned_agent_id : Option String
  attempts : Nat
  max_attempts : Nat
  verification_attempts : List VerificationAttempt
  error_history : List String
  task_output : Option WorkerOutput
  completed_at : Option String
deriving DecidableEq, Repr

/-- Outcome of one worker `execute` call: a returned report, or a raised
exception carrying its message. -/
inductive WorkerOutcome where
  | ok : WorkerOutput → WorkerOutcome
  | err : String → WorkerOutcome
deriving DecidableEq, Repr

/-- The fields of the IndependentVerifier's `VerificationResult` that the
orchestrator reads (verification/verifier.py is an external collaborator). -/
structure VerifierVerdict where
  verifier_id : String
  verified : Bool
  evidence_count : Nat
  failure_reasons : List String
deriving DecidableEq, Repr

/-- Outcome of one `IndependentVerifier.verify` call: a verdict, or a raised
exception carrying its message. -/
inductive VerifierOutcome where
  | ok : VerifierVerdict → VerifierOutcome
  | err : String → VerifierOutcome
deriving DecidableEq, Repr

/-- Environment abstracting the external collaborators: the outcome of the
worker call made on attempt `n`, and of the verifier call that follows
attempt `n`. -/
structure OrchestratorEnv where
  worker : Nat → WorkerOutcome
  verifier : Nat → VerifierOutcome

/-- registry.py: a registered agent (uuid suffix of `agent_id` omitted). -/
structure Agent where
  name : String
  capabilities : List String
deriving DecidableEq, Repr

/-- base_agent.py `FrontendAgent`. -/
def frontendAgent : Agent :=
  ⟨"frontend", ["frontend", "react", "next", "component", "ui", "css", "tailwind"]⟩

/-- base_agent.py `BackendAgent`. -/
def backendAgent : Agent :=
  ⟨"backend", ["backend", "api", "python", "fastapi", "langgraph", "agent"]⟩

/-- base_agent.py `DatabaseAgent`. -/
def databaseAgent : Agent :=
  ⟨"database", ["database", "sql", "supabase", "migration", "query", "schema"]⟩

/-- base_agent.py `DevOpsAgent`. -/
def devopsAgent : Agent :=
  ⟨"devops", ["devops", "docker", "deploy", "ci", "cd", "infrastructure"]⟩

/-- base_agent.py `GeneralAgent`. -/
def generalAgent : Agent :=
  ⟨"general", ["general", "help", "question", "explain"]⟩

/-- registry.py `AgentRegistry`: name→agent table and category→name mapping. -/
structure AgentRegistry where
  agents : List (String × Agent)
  category_mapping : List (String × String)
deriving DecidableEq, Repr

/-- registry.py `AgentRegistry._initialize_default_agents`: the registry state
after construction (each default agent registered under its `name`). -/
def defaultRegistry : AgentRegistry where
  agents :=
    [("frontend", frontendAgent), ("backend", backendAgent),
     ("database", databaseAgent), ("devops", devopsAgent),
     ("general", generalAgent)]
  category_mapping :=
    [("frontend", "frontend"), ("backend", "backend"),
     ("database", "database"), ("devops", "devops"),
     ("general", "general")]

/-- registry.py `AgentRegistry.get_agent`. -/
def getAgent (r : AgentRegistry) (name : String) : Option Agent :=
  r.agents.lookup name

/-- registry.py `AgentRegistry.get_agent_for_category`:
`self._agents.get(self._category_mapping.get(category, "general"))`. -/
def getAgentForCategory (r : AgentRegistry) (category : String) : Option Agent :=
  getAgent r ((r.category_mapping.lookup category).getD "general")

/-- Python `str.lower()` (character-wise ASCII lowering). -/
def lowerStr (s : String) : String := String.mk (s.toList.map Char.toLower)

/-- Python substring test `sub in s`. -/
def strContains (s sub : String) : Bool := decide (sub.toList <:+: s.toList)

/-- orchestrator.py `_categorize_task`: the keyword table, in the source's
insertion order. -/
def keywordTable : List (String × List String) :=
  [("frontend", ["frontend", "component", "ui", "page", "next", "react", "css", "tailwind"]),
   ("backend", ["backend", "api", "agent", "langgraph", "python", "fastapi"]),
   ("database", ["database", "migration", "supabase", "sql", "query", "schema"]),
   ("devops", ["deploy", "docker", "ci", "cd", "devops", "infrastructure"])]

/-- orchestrator.py `OrchestratorAgent._categorize_task`: first category in
table order with a keyword occurring in the lowered description, else
"general". -/
def categorizeTask (description : String) : String :=
  let dl := lowerStr description
  match keywordTable.find? (fun kv => kv.2.any (fun w => strContains dl w)) with
  | some kv => kv.1
  | none => "general"

/-- The fresh `TaskState` built at the top of `OrchestratorAgent.run`
(`task_id` is hash/time derived in the source; opaque here).  `max_attempts`
is a parameter so that the retry-bound claims quantify over the bound; the
source default is 3. -/
def mkTask (description : String) (max_attempts : Nat) : TaskState where
  task_id := "task_" ++ description
  description := description
  status := TaskStatus.pending
  assigned_agent := none
  assigned_agent_id := none
  attempts := 0
  max_attempts := max_attempts
  verification_attempts := []
  error_history := []
  task_output := none
  completed_at := none

/-- Modelled agent id: source builds `agent_{name}_{uuid}`; the uuid suffix
carries no control-flow information. -/
def agentId (a : Agent) : String := "agent_" ++ a.name

/-- orchestrator.py `OrchestratorAgent._route_task`. -/
def routeTask (t : TaskState) : TaskState :=
  let category := categorizeTask t.description
  match getAgentForCategory defaultRegistry category with
  | some agent =>
      { t with
        assigned_agent := some agent.name
        assigned_agent_id := some (agentId agent)
        status := TaskStatus.in_progress }
  | none =>
      { t with
        status := TaskStatus.blocked
        error_history := t.error_history ++ ["No agent found for category: " ++ category] }

/-- orchestrator.py `OrchestratorAgent._execute_task`:
guard on missing task/agent, `attempts += 1`, registry lookup, then the
worker call (exceptions caught at this boundary). -/
def executeTask (env : OrchestratorEnv) (t : TaskState) : TaskState :=
  match t.assigned_agent with
  | none => t
  | some name =>
    let t1 := { t with attempts := t.attempts + 1 }
    match getAgent defaultRegistry name with
    | none =>
        { t1 with
          status := TaskStatus.failed
          error_history := t1.error_history ++ ["Agent not found: " ++ name] }
    | some _ =>
      match env.worker t1.attempts with
      | WorkerOutcome.ok out =>
          { t1 with
            task_output := some out
            status := TaskStatus.awaiting_verification }
      | WorkerOutcome.err e =>
          { t1 with
            status := TaskStatus.failed
            error_history := t1.error_history ++ ["Execution error: " ++ e] }

/-- orchestrator.py `OrchestratorAgent._verify_task_independently`:
status to verification-in-progress, verifier call; on a verdict the
`VerificationAttempt` is appended and the status follows `verified`; on a
raised verifier exception the record append is skipped (it sits after the
`verifier.verify` call inside the same `try`) and the status becomes
verification-failed. -/
def verifyTask (env : OrchestratorEnv) (t : TaskState) : TaskState :=
  let t1 := { t with status := TaskStatus.verification_in_progress }
  match env.verifier t1.attempts with
  | VerifierOutcome.ok v =>
    let t2 :=
      { t1 with
        verification_attempts := t1.verification_attempts ++
          [({ attempt_number := t1.verification_attempts.length + 1
              verifier_id := v.verifier_id
              passed := v.verified
              evidence_count := v.evidence_count
              failures := v.failure_reasons } : VerificationAttempt)] }
    if v.verified then
      { t2 with status := TaskStatus.verification_passed }
    else
      { t2 with
        status := TaskStatus.verification_failed
        error_history := t2.error_history ++
          ["Verification failed: " ++ String.intercalate ", " v.failure_reasons] }
  | VerifierOutcome.err e =>
      { t1 with
        status := TaskStatus.verification_failed
        error_history := t1.error_history ++ ["Verification error: " ++ e] }

/-- orchestrator.py `OrchestratorAgent._generate_failure_report`: the report
text is recorded in `error_history`; its exact wording carries no
control-flow information and is abridged here. -/
def generateFailureReport (t : TaskState) : String :=
  "Verification Failed: " ++ t.description ++
    " attempt " ++ toString t.attempts ++ "/" ++ toString t.max_attempts

/-- orchestrator.py `OrchestratorAgent._handle_verification_failure`. -/
def handleVerificationFailure (t : TaskState) : TaskState :=
  let t1 := { t with error_history := t.error_history ++ [generateFailureReport t] }
  if t1.attempts < t1.max_attempts then
    { t1 with status := TaskStatus.in_progress }
  else
    { t1 with status := TaskStatus.failed }

/-- The execute/verify `while` loop of `OrchestratorAgent.run`.  The branch
structure mirrors the source: on verification-passed the task is completed
and the loop breaks; on verification-failed the failure handler runs and the
loop either escalates (break) or retries; any other post-execute status
(execution failure) falls back to the loop condition.  `fuel` bounds the
iteration count; every reachable iteration increments `attempts`, so
`max_attempts + 1` fuel is sufficient (proved below). -/
def runLoop (env : OrchestratorEnv) : Nat → TaskState → TaskState
  | 0, t => t
  | fuel + 1, t =>
    if t.attempts < t.max_attempts ∧ t.status ≠ TaskStatus.completed ∧
        t.status ≠ TaskStatus.escalated_to_human then
      let t1 := executeTask env t
      if t1.status = TaskStatus.awaiting_verification then
        let t2 := verifyTask env t1
        if t2.status = TaskStatus.verification_passed then
          { t2 with status := TaskStatus.completed, completed_at := some "completed" }
        else if t2.status = TaskStatus.verification_failed then
          let t3 := handleVerificationFailure t2
          if t3.max_attempts ≤ t3.attempts then
            { t3 with status := TaskStatus.escalated_to_human }
          else
            runLoop env fuel t3
        else
          runLoop env fuel t2
      else
        runLoop env fuel t1
    else
      t

/-- orchestrator.py `OrchestratorAgent.run`, followed through the single
task it creates: route, then (unless blocked) the execute/verify loop.  The
terminal bookkeeping (`completed_tasks` / `failed_tasks` /
`escalated_tasks` lists in `_build_result`) moves the task value unchanged
and is not modelled separately. -/
def runTask (env : OrchestratorEnv) (t0 : TaskState) : TaskState :=
  let t := routeTask t0
  if t.status = TaskStatus.blocked then t
  else runLoop env (t.max_attempts + 1) t

/-- subagent_manager.py `SubagentStatus`. -/
inductive SubagentStatus where
  | created
  | running
  | completed
  | failed
  | blocked
  | cancelled
deriving DecidableEq, Repr

/-- subagent_manager.py `SubTask`. -/
structure SubTask where
  subtask_id : String
  description : String
  agent_type : String
  dependencies : List String
  priority : Nat
deriving DecidableEq, Repr

/-- subagent_manager.py `SubagentConfig` (source defaults:
`timeout_seconds = 300`, `max_retries = 2`; `context_partition` is an opaque
bag that never influences scheduling and is omitted). -/
structure SubagentConfig where
  agent_type : String
  task : SubTask
  timeout_seconds : Nat
  max_retries : Nat
deriving DecidableEq, Repr

/-- subagent_manager.py `SubagentResult` (timestamps/duration omitted:
opaque wall clock). -/
structure SubagentResult where
  subtask_id : String
  agent_id : String
  agent_type : String
  status : SubagentStatus
  result : Option String
  error : Option String
deriving DecidableEq, Repr

/-- The wave predicate of `_resolve_dependencies`:
`all(dep in completed for dep in config.task.dependencies)`. -/
def depsMet (completed : List String) (c : SubagentConfig) : Bool :=
  c.task.dependencies.all (fun d => completed.contains d)

/-- subagent_manager.py `SubagentManager._resolve_dependencies`, the
`while remaining` loop.  `can_run` filters by `depsMet`; when it is empty
while work remains (cycle or missing dependency) the source forces
`can_run = remaining`, after which the removal step empties `remaining` and
the loop exits — hence the forced branch returns the one final wave.  The
source removes the wave by `c not in can_run` (pydantic value equality);
since membership in `can_run = filter (depsMet completed) remaining` is
equivalent to `depsMet completed c` for `c ∈ remaining`, the removal is the
complementary filter.  The source's local `can_run` is inlined as its
defining filter expression. -/
def resolveLoop (remaining : List SubagentConfig) (completed : List String) :
    List (List SubagentConfig) :=
  if h : remaining = [] then []
  else if hc : remaining.filter (depsMet completed) = [] then
    [remaining]
  else
    remaining.filter (depsMet completed) ::
      resolveLoop (remaining.filter (fun c => !(depsMet completed c)))
        (completed ++ (remaining.filter (depsMet completed)).map (fun c => c.task.subtask_id))
termination_by remaining.length
decreasing_by
  have hlen := List.length_eq_length_filter_add (l := remaining) (depsMet completed)
  have hpos : 0 < (remaining.filter (depsMet completed)).length :=
    List.length_pos.mpr hc
  simp only [Bool.not_eq_true'] at hlen ⊢
  omega

/-- `_resolve_dependencies` as called from `execute_parallel`: the loop
started with `completed = set()`. -/
def resolveWaves (configs : List SubagentConfig) : List (List SubagentConfig) :=
  resolveLoop configs []

/-- Outcome of one `_execute_subagent` call, abstracting the awaited
`agent.execute` together with its `asyncio.wait_for` wrapper: the call
returns a payload, raises (including the unobtainable-agent `ValueError`),
or exceeds the timeout. -/
inductive SubagentOutcome where
  | ok : String → SubagentOutcome
  | err : String → SubagentOutcome
  | timeout : SubagentOutcome
deriving DecidableEq, Repr

/-- subagent_manager.py `SubagentManager._execute_subagent`: converts the
outcome of its own subtask into a `SubagentResult`; a timeout yields a
failed result with the timeout-specific message, an exception yields a
failed result with the exception text, success yields a completed result
(the source's agent id is uuid-based; modelled from the agent type). -/
def executeSubagent (env : String → SubagentOutcome) (config : SubagentConfig) :
    SubagentResult :=
  match env config.task.subtask_id with
  | SubagentOutcome.ok payload =>
      { subtask_id := config.task.subtask_id
        agent_id := "agent_" ++ config.agent_type
        agent_type := config.agent_type
        status := SubagentStatus.completed
        result := some payload
        error := none }
  | SubagentOutcome.err e =>
      { subtask_id := config.task.subtask_id
        agent_id := "unknown"
        agent_type := config.agent_type
        status := SubagentStatus.failed
        result := none
        error := some e }
  | SubagentOutcome.timeout =>
      { subtask_id := config.task.subtask_id
        agent_id := "unknown"
        agent_type := config.agent_type
        status := SubagentStatus.failed
        result := none
        error := some ("Timeout after " ++ toString config.timeout_seconds ++ "s") }

/-- subagent_manager.py `SubagentManager.execute_parallel`: resolve the
waves, then per wave gather every subtask's result and extend
`all_results`.  `_execute_subagent` catches all exceptions itself, so the
`isinstance(result, Exception)` arm of the gather loop is dead code and the
appended results are exactly the per-config results in wave order. -/
def executeParallel (env : String → SubagentOutcome)
    (configs : List SubagentConfig) : List SubagentResult :=
  let execution_plan := resolveWaves configs
  execution_plan.foldl
    (fun all_results wave => all_results ++ wave.map (executeSubagent env)) []

/-- The `_active_subagents` tracking state, restricted to the `status`
field that `cancel_subagent` reads and writes. -/
def setStatus (m : List (String × SubagentStatus)) (subtask_id : String)
    (st : SubagentStatus) : List (String × SubagentStatus) :=
  m.map (fun kv => if kv.1 = subtask_id then (kv.1, st) else kv)

/-- subagent_manager.py `SubagentManager.cancel_subagent`: False when the id
is untracked; False when the tracked status is COMPLETED or FAILED (the
source checks only these two); otherwise the status is set to CANCELLED and
the call returns True. -/
def cancelSubagent (m : List (String × SubagentStatus)) (subtask_id : String) :
    Bool × List (String × SubagentStatus) :=
  match m.lookup subtask_id with
  | none => (false, m)
  | some st =>
    if st = SubagentStatus.completed ∨ st = SubagentStatus.failed then
      (false, m)
    else
      (true, setStatus m subtask_id SubagentStatus.cancelled)

/-- Specification-side reading of §8 "dependencies appear in a strictly
earlier wave", phrased wave-by-wave: relative to an initially satisfied id
set, each wave's dependencies are satisfied before it, and the wave's ids
are added for the suffix. -/
def WavesOrdered (completed : List String) : List (List SubagentConfig) → Prop
  | [] => True
  | wave :: rest =>
      (∀ c ∈ wave, ∀ d ∈ c.task.dependencies, d ∈ completed) ∧
      WavesOrdered (completed ++ wave.map (fun c => c.task.subtask_id)) rest


/-! ### Concrete inputs used by witnesses and counterexamples -/

/-- A worker report with no claimed outputs. -/
def sampleOutput : WorkerOutput := ⟨[], []⟩

/-- A passing verdict from the independent verifier. -/
def passVerdict : VerifierVerdict := ⟨"verifier_1", true, 3, []⟩

/-- A failing verdict from the independent verifier. -/
def failVerdict : VerifierVerdict := ⟨"verifier_1", false, 1, ["file missing"]⟩

/-- Environment: worker succeeds, verifier passes. -/
def envAllPass : OrchestratorEnv :=
  ⟨fun _ => WorkerOutcome.ok sampleOutput, fun _ => VerifierOutcome.ok passVerdict⟩

/-- Environment: worker succeeds, verifier always returns a failing verdict. -/
def envAlwaysFailVerdict : OrchestratorEnv :=
  ⟨fun _ => WorkerOutcome.ok sampleOutput, fun _ => VerifierOutcome.ok failVerdict⟩

/-- Environment: worker raises on the first attempt and succeeds afterwards;
verifier passes. -/
def envWorkerRaisesOnce : OrchestratorEnv :=
  ⟨fun n => if n = 1 then WorkerOutcome.err "boom" else WorkerOutcome.ok sampleOutput,
   fun _ => VerifierOutcome.ok passVerdict⟩

/-- Environment: worker raises on every attempt. -/
def envWorkerAlwaysRaises : OrchestratorEnv :=
  ⟨fun _ => WorkerOutcome.err "boom", fun _ => VerifierOutcome.ok passVerdict⟩

/-- Environment: worker succeeds, verifier raises on every call. -/
def envVerifierRaises : OrchestratorEnv :=
  ⟨fun _ => WorkerOutcome.ok sampleOutput, fun _ => VerifierOutcome.err "verifier crashed"⟩

/-- A subagent config with the source defaults and the given dependencies. -/
def mkCfg (i : String) (deps : List String) : SubagentConfig :=
  ⟨"backend", ⟨i, "task " ++ i, "backend", deps, 5⟩, 300, 2⟩

/-- Example subtask A of §8 (no dependencies). -/
def cfgA : SubagentConfig := mkCfg "A" []

/-- Example subtask B of §8 (no dependencies). -/
def cfgB : SubagentConfig := mkCfg "B" []

/-- Example subtask C of §8 (depends on A and B). -/
def cfgC : SubagentConfig := mkCfg "C" ["A", "B"]

/-- One half of a two-cycle. -/
def cfgCycX : SubagentConfig := mkCfg "X" ["Y"]

/-- Other half of a two-cycle. -/
def cfgCycY : SubagentConfig := mkCfg "Y" ["X"]

/-- A topological rank for the A/B/C example. -/
def rankABC : String → Nat := fun s => if s = "C" then 1 else 0

/-- Per-subtask outcomes: A times out, B raises, C succeeds. -/
def subagentEnvSample : String → SubagentOutcome := fun i =>
  if i = "A" then SubagentOutcome.timeout
  else if i = "B" then SubagentOutcome.err "ValueError: Cannot get/create agent"
  else SubagentOutcome.ok "done"

/-- A routed task that has just executed its first attempt, as
`_verify_task_independently` receives it. -/
def taskAwaitingVerification : TaskState :=
  { mkTask "x" 3 with
      attempts := 1
      status := TaskStatus.awaiting_verification
      assigned_agent := some "general"
      assigned_agent_id := some "agent_general" }

/-! ### Generic list lemmas -/

/-- A nonempty list has an element minimising a `Nat`-valued measure. -/
theorem exists_min_image {α : Type} (f : α → Nat) :
    ∀ (l : List α), l ≠ [] → ∃ a ∈ l, ∀ b ∈ l, f a ≤ f b := by
  intro l
  induction l with
  | nil => intro h; exact absurd rfl h
  | cons x xs ih =>
    intro _
    rcases eq_or_ne xs [] with h | h
    · subst h
      refine ⟨x, List.mem_cons_self x [], ?_⟩
      intro b hb
      simp at hb
      simp [hb]
    · obtain ⟨a, ha, hmin⟩ := ih h
      by_cases hx : f x ≤ f a
      · refine ⟨x, List.mem_cons_self x xs, ?_⟩
        intro b hb
        rcases List.mem_cons.1 hb with rfl | hb
        · exact le_refl _
        · exact le_trans hx (hmin b hb)
      · refine ⟨a, List.mem_cons_of_mem x ha, ?_⟩
        intro b hb
        rcases List.mem_cons.1 hb with rfl | hb
        · exact le_of_lt (lt_of_not_le hx)
        · exact hmin b hb

/-- Removing a nonempty filtered part strictly shrinks a list. -/
theorem length_filter_not_lt {α : Type} (p : α → Bool) (l : List α)
    (h : l.filter p ≠ []) : (l.filter fun a => !p a).length < l.length := by
  have hlen := List.length_eq_length_filter_add (l := l) p
  have hpos : 0 < (l.filter p).length := List.length_pos.mpr h
  omega

/-- Folding wave-result appends equals mapping over the flattened plan. -/
theorem foldl_append_map {α β : Type} (g : α → β) :
    ∀ (plan : List (List α)) (acc : List β),
      plan.foldl (fun a w => a ++ w.map g) acc = acc ++ plan.flatten.map g := by
  intro plan
  induction plan with
  | nil => intro acc; simp
  | cons w rest ih =>
    intro acc
    simp [List.foldl_cons, ih, List.flatten]

/-! ### Registry and routing lemmas -/

/-- Any hit in the default category mapping is one of the five agent names. -/
theorem lookup_defaultMapping (category name : String)
    (h : List.lookup category defaultRegistry.category_mapping = some name) :
    name = "frontend" ∨ name = "backend" ∨ name = "database" ∨
      name = "devops" ∨ name = "general" := by
  simp only [defaultRegistry, List.lookup] at h
  repeat' split at h
  all_goals simp_all

/-- `_categorize_task` only ever returns one of the five categories. -/
theorem categorizeTask_mem (d : String) :
    categorizeTask d ∈ ["frontend", "backend", "database", "devops", "general"] := by
  unfold categorizeTask
  cases h : keywordTable.find? (fun kv => kv.2.any (fun w => strContains (lowerStr d) w)) with
  | none => simp [h]
  | some kv =>
    have hm : kv ∈ keywordTable := List.mem_of_find?_eq_some h
    simp only [h]
    simp only [keywordTable, List.mem_cons, List.not_mem_nil, or_false] at hm
    rcases hm with rfl | rfl | rfl | rfl <;> simp

/-- Category lookup for any of the five categories yields an agent that the
agent table maps back to itself under its own name. -/
theorem getAgentForCategory_of_mem (category : String)
    (h : category ∈ ["frontend", "backend", "database", "devops", "general"]) :
    ∃ a, getAgentForCategory defaultRegistry category = some a ∧
      getAgent defaultRegistry a.name = some a := by
  simp only [List.mem_cons, List.not_mem_nil, or_false] at h
  rcases h with rfl | rfl | rfl | rfl | rfl
  · exact ⟨frontendAgent, rfl, rfl⟩
  · exact ⟨backendAgent, rfl, rfl⟩
  · exact ⟨databaseAgent, rfl, rfl⟩
  · exact ⟨devopsAgent, rfl, rfl⟩
  · exact ⟨generalAgent, rfl, rfl⟩

/-- With the default registry, routing always assigns an agent whose name the
agent table resolves, and sets the status to in-progress. -/
theorem routeTask_assigns (t : TaskState) :
    ∃ a, routeTask t =
        { t with
          assigned_agent := some a.name
          assigned_agent_id := some (agentId a)
          status := TaskStatus.in_progress } ∧
      getAgent defaultRegistry a.name = some a := by
  obtain ⟨a, ha, hname⟩ :=
    getAgentForCategory_of_mem (categorizeTask t.description) (categorizeTask_mem t.description)
  refine ⟨a, ?_, hname⟩
  simp only [routeTask, ha]

/-! ### Execute-step lemmas -/

/-- `_execute_task` on a successful worker call: one more attempt, report
stored, status moves to awaiting-verification. -/
theorem executeTask_ok (env : OrchestratorEnv) (t : TaskState) (name : String)
    (out : WorkerOutput) (h : t.assigned_agent = some name)
    (ha : (getAgent defaultRegistry name).isSome)
    (hw : env.worker (t.attempts + 1) = WorkerOutcome.ok out) :
    executeTask env t =
      { t with
        attempts := t.attempts + 1
        task_output := some out
        status := TaskStatus.awaiting_verification } := by
  obtain ⟨a, ha⟩ := Option.isSome_iff_exists.mp ha
  simp only [executeTask, h, ha, hw]

/-- `_execute_task` on a raising worker call: one more attempt, error
recorded, status moves directly to failed; verification state untouched. -/
theorem executeTask_err (env : OrchestratorEnv) (t : TaskState) (name : String)
    (e : String) (h : t.assigned_agent = some name)
    (ha : (getAgent defaultRegistry name).isSome)
    (hw : env.worker (t.attempts + 1) = WorkerOutcome.err e) :
    executeTask env t =
      { t with
        attempts := t.attempts + 1
        status := TaskStatus.failed
        error_history := t.error_history ++ ["Execution error: " ++ e] } := by
  obtain ⟨a, ha⟩ := Option.isSome_iff_exists.mp ha
  simp only [executeTask, h, ha, hw]

/-- The execute step leaves the status alone or sets it to
awaiting-verification or failed. -/
theorem executeTask_status (env : OrchestratorEnv) (t : TaskState) :
    (executeTask env t).status = t.status ∨
    (executeTask env t).status = TaskStatus.awaiting_verification ∨
    (executeTask env t).status = TaskStatus.failed := by
  rcases h : t.assigned_agent with _ | name
  · left; simp [executeTask, h]
  · rcases ha : getAgent defaultRegistry name with _ | a
    · right; right; simp [executeTask, h, ha]
    · rcases hw : env.worker (t.attempts + 1) with out | e
      · right; left; simp [executeTask, h, ha, hw]
      · right; right; simp [executeTask, h, ha, hw]

/-- The execute step never touches the verification trail, the bound, or the
routing fields. -/
theorem executeTask_frame (env : OrchestratorEnv) (t : TaskState) :
    (executeTask env t).verification_attempts = t.verification_attempts ∧
    (executeTask env t).max_attempts = t.max_attempts ∧
    (executeTask env t).assigned_agent = t.assigned_agent := by
  rcases h : t.assigned_agent with _ | name
  · simp [executeTask, h]
  · rcases ha : getAgent defaultRegistry name with _ | a
    · simp [executeTask, h, ha]
    · rcases hw : env.worker (t.attempts + 1) with out | e
      · simp [executeTask, h, ha, hw]
      · simp [executeTask, h, ha, hw]

/-! ### Verify-step lemmas -/

/-- `_verify_task_independently` on a passing verdict: exactly one attempt
record is appended (with `passed = true`) and the status becomes
verification-passed. -/
theorem verifyTask_ok_true (env : OrchestratorEnv) (t : TaskState)
    (v : VerifierVerdict) (h : env.verifier t.attempts = VerifierOutcome.ok v)
    (hv : v.verified = true) :
    verifyTask env t =
      { t with
        status := TaskStatus.verification_passed
        verification_attempts := t.verification_attempts ++
          [({ attempt_number := t.verification_attempts.length + 1
              verifier_id := v.verifier_id
              passed := v.verified
              evidence_count := v.evidence_count
              failures := v.failure_reasons } : VerificationAttempt)] } := by
  simp only [verifyTask, h, hv, if_true]

/-- `_verify_task_independently` on a failing verdict: exactly one attempt
record is appended (with `passed = false`), the failure is recorded, and the
status becomes verification-failed. -/
theorem verifyTask_ok_false (env : OrchestratorEnv) (t : TaskState)
    (v : VerifierVerdict) (h : env.verifier t.attempts = VerifierOutcome.ok v)
    (hv : v.verified = false) :
    verifyTask env t =
      { t with
        status := TaskStatus.verification_failed
        verification_attempts := t.verification_attempts ++
          [({ attempt_number := t.verification_attempts.length + 1
              verifier_id := v.verifier_id
              passed := v.verified
              evidence_count := v.evidence_count
              failures := v.failure_reasons } : VerificationAttempt)]
        error_history := t.error_history ++
          ["Verification failed: " ++ String.intercalate ", " v.failure_reasons] } := by
  simp only [verifyTask, h, hv]
  rfl

/-- `_verify_task_independently` when the verifier raises: no attempt record
is appended, the error goes to `error_history`, and the status becomes
verification-failed. -/
theorem verifyTask_err (env : OrchestratorEnv) (t : TaskState) (e : String)
    (h : env.verifier t.attempts = VerifierOutcome.err e) :
    verifyTask env t =
      { t with
        status := TaskStatus.verification_failed
        error_history := t.error_history ++ ["Verification error: " ++ e] } := by
  simp only [verifyTask, h]

/-- The verify step always ends in verification-passed or
verification-failed. -/
theorem verifyTask_status (env : OrchestratorEnv) (t : TaskState) :
    (verifyTask env t).status = TaskStatus.verification_passed ∨
    (verifyTask env t).status = TaskStatus.verification_failed := by
  rcases h : env.verifier t.attempts with v | e
  · by_cases hv : v.verified = true
    · left; rw [verifyTask_ok_true env t v h hv]
    · right
      rw [verifyTask_ok_false env t v h (Bool.not_eq_true _ ▸ hv)]
  · right; rw [verifyTask_err env t e h]

/-- A verification-passed outcome certifies that one record with
`passed = true` was just appended. -/
theorem verifyTask_passed_va (env : OrchestratorEnv) (t : TaskState)
    (h : (verifyTask env t).status = TaskStatus.verification_passed) :
    ∃ r, (verifyTask env t).verification_attempts = t.verification_attempts ++ [r] ∧
      r.passed = true := by
  rcases hv : env.verifier t.attempts with v | e
  · by_cases hb : v.verified = true
    · rw [verifyTask_ok_true env t v hv hb]
      exact ⟨_, rfl, hb⟩
    · rw [verifyTask_ok_false env t v hv (Bool.not_eq_true _ ▸ hb)] at h
      simp at h
  · rw [verifyTask_err env t e hv] at h
    simp at h

/-- The verify step never touches the attempt counter, the bound, or the
routing fields. -/
theorem verifyTask_frame (env : OrchestratorEnv) (t : TaskState) :
    (verifyTask env t).attempts = t.attempts ∧
    (verifyTask env t).max_attempts = t.max_attempts ∧
    (verifyTask env t).assigned_agent = t.assigned_agent := by
  rcases h : env.verifier t.attempts with v | e
  · by_cases hv : v.verified = true
    · rw [verifyTask_ok_true env t v h hv]
      exact ⟨rfl, rfl, rfl⟩
    · rw [verifyTask_ok_false env t v h (Bool.not_eq_true _ ▸ hv)]
      exact ⟨rfl, rfl, rfl⟩
  · rw [verifyTask_err env t e h]
    exact ⟨rfl, rfl, rfl⟩

/-! ### Failure-handler lemmas -/

/-- `_handle_verification_failure` with attempts remaining: back to
in-progress for a retry, after recording the failure report. -/
theorem handleVF_retry (t : TaskState) (h : t.attempts < t.max_attempts) :
    handleVerificationFailure t =
      { t with
        status := TaskStatus.in_progress
        error_history := t.error_history ++ [generateFailureReport t] } := by
  simp only [handleVerificationFailure, h, if_true]

/-- `_handle_verification_failure` with the bound exhausted: status failed
(the caller immediately escalates), after recording the failure report. -/
theorem handleVF_exhausted (t : TaskState) (h : ¬ t.attempts < t.max_attempts) :
    handleVerificationFailure t =
      { t with
        status := TaskStatus.failed
        error_history := t.error_history ++ [generateFailureReport t] } := by
  simp only [handleVerificationFailure, h, if_false]

/-- The failure handler leaves the task in-progress (retry) or failed. -/
theorem handleVF_status (t : TaskState) :
    (handleVerificationFailure t).status = TaskStatus.in_progress ∨
    (handleVerificationFailure t).status = TaskStatus.failed := by
  by_cases h : t.attempts < t.max_attempts
  · left; rw [handleVF_retry t h]
  · right; rw [handleVF_exhausted t h]

/-! ### Run-loop lemmas -/

/-- No step of the execute/verify loop ever produces the blocked status. -/
theorem runLoop_ne_blocked (env : OrchestratorEnv) :
    ∀ (fuel : Nat) (t : TaskState), t.status ≠ TaskStatus.blocked →
      (runLoop env fuel t).status ≠ TaskStatus.blocked := by
  intro fuel
  induction fuel with
  | zero => intro t h; simpa [runLoop] using h
  | succ fuel ih =>
    intro t h
    simp only [runLoop]
    split
    · split
      · split
        · simp
        · split
          · split
            · simp
            · refine ih _ ?_
              rcases handleVF_status (verifyTask env (executeTask env t)) with h3 | h3 <;>
                simp [h3]
          · refine ih _ ?_
            rcases verifyTask_status env (executeTask env t) with h2 | h2 <;> simp [h2]
      · refine ih _ ?_
        rcases executeTask_status env t with h1 | h1 | h1 <;> simp [h1, h]
    · exact h

/-- If the loop ends with status completed, the verification trail is
nonempty and its last record passed: completion is reachable only through
the verification-passed branch, which appends a passing record. -/
theorem runLoop_completed_va (env : OrchestratorEnv) :
    ∀ (fuel : Nat) (t : TaskState), t.status ≠ TaskStatus.completed →
      (runLoop env fuel t).status = TaskStatus.completed →
      (runLoop env fuel t).verification_attempts ≠ [] ∧
      ∃ r, (runLoop env fuel t).verification_attempts.getLast? = some r ∧
        r.passed = true := by
  intro fuel
  induction fuel with
  | zero =>
    intro t h hc
    rw [runLoop] at hc
    exact absurd hc h
  | succ fuel ih =>
    intro t h
    simp only [runLoop]
    split
    · split
      · split
        next hpass =>
          intro _
          obtain ⟨r, hva, hp⟩ := verifyTask_passed_va env (executeTask env t) hpass
          constructor
          · simp [hva]
          · refine ⟨r, ?_, hp⟩
            show (verifyTask env (executeTask env t)).verification_attempts.getLast? = some r
            rw [hva, List.getLast?_append_cons]
            rfl
        next hpass =>
          split
          · split
            · intro hc
              simp at hc
            · exact ih _ (by
                rcases handleVF_status (verifyTask env (executeTask env t)) with h3 | h3 <;>
                  simp [h3])
          · exact ih _ (by
              rcases verifyTask_status env (executeTask env t) with h2 | h2 <;> simp_all)
      · exact ih _ (by
          rcases executeTask_status env t with h1 | h1 | h1 <;> simp [h1, h])
    · intro hc
      exact absurd hc h

/-- Under an always-failing verifier verdict (and a worker that always
returns), the loop escalates exactly when the bound is reached: the final
attempt count equals the bound and one verification record is appended per
attempt. -/
theorem runLoop_escalates (env : OrchestratorEnv)
    (hw : ∀ n, ∃ out, env.worker n = WorkerOutcome.ok out)
    (hv : ∀ n, ∃ v, env.verifier n = VerifierOutcome.ok v ∧ v.verified = false) :
    ∀ (fuel : Nat) (t : TaskState) (name : String),
      t.assigned_agent = some name →
      (getAgent defaultRegistry name).isSome →
      t.status = TaskStatus.in_progress →
      t.attempts < t.max_attempts →
      t.max_attempts - t.attempts ≤ fuel →
      (runLoop env fuel t).attempts = t.max_attempts ∧
      (runLoop env fuel t).status = TaskStatus.escalated_to_human ∧
      (runLoop env fuel t).verification_attempts.length
        = t.verification_attempts.length + (t.max_attempts - t.attempts) ∧
      (runLoop env fuel t).max_attempts = t.max_attempts := by
  intro fuel
  induction fuel with
  | zero => intro t name h ha hs hlt hfuel; omega
  | succ fuel ih =>
    intro t name h ha hs hlt hfuel
    obtain ⟨out, hwo⟩ := hw (t.attempts + 1)
    obtain ⟨v, hvo, hvf⟩ := hv (t.attempts + 1)
    have hcond : t.attempts < t.max_attempts ∧ t.status ≠ TaskStatus.completed ∧
        t.status ≠ TaskStatus.escalated_to_human := ⟨hlt, by simp [hs], by simp [hs]⟩
    have hexec := executeTask_ok env t name out h ha hwo
    have hst1 : (executeTask env t).status = TaskStatus.awaiting_verification := by rw [hexec]
    have hat1 : (executeTask env t).attempts = t.attempts + 1 := by rw [hexec]
    obtain ⟨hvaE, hmaxE, hagE⟩ := executeTask_frame env t
    have hvo1 : env.verifier (executeTask env t).attempts = VerifierOutcome.ok v := by
      rw [hat1]; exact hvo
    have hver := verifyTask_ok_false env (executeTask env t) v hvo1 hvf
    obtain ⟨hatV, hmaxV, hagV⟩ := verifyTask_frame env (executeTask env t)
    have hat2 : (verifyTask env (executeTask env t)).attempts = t.attempts + 1 :=
      hatV.trans hat1
    have hmax2 : (verifyTask env (executeTask env t)).max_attempts = t.max_attempts :=
      hmaxV.trans hmaxE
    have hag2 : (verifyTask env (executeTask env t)).assigned_agent = some name := by
      rw [hagV, hagE, h]
    have hst2 : (verifyTask env (executeTask env t)).status = TaskStatus.verification_failed := by
      rw [hver]
    have hlen2 : (verifyTask env (executeTask env t)).verification_attempts.length
        = t.verification_attempts.length + 1 := by
      rw [hver]
      simp [hvaE]
    have hnp : ¬ ((verifyTask env (executeTask env t)).status
        = TaskStatus.verification_passed) := by
      rw [hst2]; decide
    simp only [runLoop]
    rw [if_pos hcond, if_pos hst1, if_neg hnp, if_pos hst2]
    by_cases hfin : t.attempts + 1 < t.max_attempts
    · have hh := handleVF_retry (verifyTask env (executeTask env t))
        (by rw [hat2, hmax2]; exact hfin)
      have hT3at : (handleVerificationFailure
          (verifyTask env (executeTask env t))).attempts = t.attempts + 1 := by
        rw [hh]; simpa using hat2
      have hT3max : (handleVerificationFailure
          (verifyTask env (executeTask env t))).max_attempts = t.max_attempts := by
        rw [hh]; simpa using hmax2
      have hT3ag : (handleVerificationFailure
          (verifyTask env (executeTask env t))).assigned_agent = some name := by
        rw [hh]; simpa using hag2
      have hT3st : (handleVerificationFailure
          (verifyTask env (executeTask env t))).status = TaskStatus.in_progress := by
        rw [hh]
      have hT3va : (handleVerificationFailure
          (verifyTask env (executeTask env t))).verification_attempts.length
          = t.verification_attempts.length + 1 := by
        rw [hh]; simpa using hlen2
      split
      next hcond2 =>
        exfalso
        rw [hT3max, hT3at] at hcond2
        omega
      next =>
        obtain ⟨e1, e2, e3, e4⟩ :=
          ih (handleVerificationFailure (verifyTask env (executeTask env t))) name
            hT3ag ha hT3st (by rw [hT3at, hT3max]; exact hfin) (by rw [hT3at, hT3max]; omega)
        refine ⟨?_, e2, ?_, ?_⟩
        · rw [e1, hT3max]
        · rw [e3, hT3va, hT3max, hT3at]
          omega
        · rw [e4, hT3max]
    · have hh := handleVF_exhausted (verifyTask env (executeTask env t))
        (by rw [hat2, hmax2]; omega)
      have hT3at : (handleVerificationFailure
          (verifyTask env (executeTask env t))).attempts = t.attempts + 1 := by
        rw [hh]; simpa using hat2
      have hT3max : (handleVerificationFailure
          (verifyTask env (executeTask env t))).max_attempts = t.max_attempts := by
        rw [hh]; simpa using hmax2
      have hT3va : (handleVerificationFailure
          (verifyTask env (executeTask env t))).verification_attempts.length
          = t.verification_attempts.length + 1 := by
        rw [hh]; simpa using hlen2
      split
      next =>
        refine ⟨?_, rfl, ?_, ?_⟩
        · show (handleVerificationFailure
            (verifyTask env (executeTask env t))).attempts = t.max_attempts
          rw [hT3at]
          omega
        · show (handleVerificationFailure
            (verifyTask env (executeTask env t))).verification_attempts.length
            = t.verification_attempts.length + (t.max_attempts - t.attempts)
          rw [hT3va]
          omega
        · show (handleVerificationFailure
            (verifyTask env (executeTask env t))).max_attempts = t.max_attempts
          exact hT3max
      next hcond2 =>
        exfalso
        rw [hT3max, hT3at] at hcond2
        omega

/-- Under a worker that raises on every attempt, the loop retries until the
bound, never reaches verification, and ends failed, with one recorded
execution error per attempt. -/
theorem runLoop_worker_raises (env : OrchestratorEnv)
    (hw : ∀ n, ∃ e, env.worker n = WorkerOutcome.err e) :
    ∀ (fuel : Nat) (t : TaskState) (name : String),
      t.assigned_agent = some name →
      (getAgent defaultRegistry name).isSome →
      (t.status = TaskStatus.in_progress ∨ t.status = TaskStatus.failed) →
      t.attempts ≤ t.max_attempts →
      t.max_attempts - t.attempts ≤ fuel →
      (runLoop env fuel t).attempts = t.max_attempts ∧
      (runLoop env fuel t).status
        = (if t.attempts < t.max_attempts then TaskStatus.failed else t.status) ∧
      (runLoop env fuel t).verification_attempts = t.verification_attempts ∧
      (runLoop env fuel t).error_history.length
        = t.error_history.length + (t.max_attempts - t.attempts) := by
  intro fuel
  induction fuel with
  | zero =>
    intro t name h ha hs hle hfuel
    have heq : t.attempts = t.max_attempts := by omega
    have hnlt : ¬ t.attempts < t.max_attempts := by omega
    rw [runLoop]
    refine ⟨heq, ?_, rfl, by omega⟩
    rw [if_neg hnlt]
  | succ fuel ih =>
    intro t name h ha hs hle hfuel
    by_cases hlt : t.attempts < t.max_attempts
    · obtain ⟨e, hwo⟩ := hw (t.attempts + 1)
      have hcond : t.attempts < t.max_attempts ∧ t.status ≠ TaskStatus.completed ∧
          t.status ≠ TaskStatus.escalated_to_human :=
        ⟨hlt, by rcases hs with hs | hs <;> simp [hs], by rcases hs with hs | hs <;> simp [hs]⟩
      have hexec := executeTask_err env t name e h ha hwo
      have hst1 : (executeTask env t).status = TaskStatus.failed := by rw [hexec]
      have hat1 : (executeTask env t).attempts = t.attempts + 1 := by rw [hexec]
      obtain ⟨hvaE, hmaxE, hagE⟩ := executeTask_frame env t
      have hEH1 : (executeTask env t).error_history.length
          = t.error_history.length + 1 := by
        rw [hexec]; simp
      have hnaw : ¬ ((executeTask env t).status = TaskStatus.awaiting_verification) := by
        rw [hst1]; decide
      simp only [runLoop]
      rw [if_pos hcond, if_neg hnaw]
      obtain ⟨e1, e2, e3, e4⟩ := ih (executeTask env t) name
        (by rw [hagE, h]) ha (Or.inr hst1)
        (by rw [hat1, hmaxE]; omega) (by rw [hat1, hmaxE]; omega)
      rw [hat1, hmaxE, hst1] at e2
      rw [hEH1, hat1, hmaxE] at e4
      refine ⟨?_, ?_, ?_, ?_⟩
      · rw [e1, hmaxE]
      · rw [e2, if_pos hlt]
        split <;> rfl
      · rw [e3, hvaE]
      · rw [e4]
        omega
    · have heq : t.attempts = t.max_attempts := by omega
      have hnltg : ¬ t.attempts < t.max_attempts := hlt
      simp only [runLoop]
      rw [if_neg (by simp [hnltg])]
      refine ⟨heq, ?_, rfl, by omega⟩
      rw [if_neg hnltg]

/-! ### Wave-resolution lemmas -/

/-- The concatenation of the waves returned by the resolution loop is a
permutation of the remaining input: every config is scheduled exactly once. -/
theorem resolveLoop_flatten_perm :
    ∀ (n : Nat) (remaining : List SubagentConfig) (completed : List String),
      remaining.length ≤ n →
      ((resolveLoop remaining completed).flatten).Perm remaining := by
  intro n
  induction n with
  | zero =>
    intro remaining completed hlen
    have h : remaining = [] := List.length_eq_zero.mp (Nat.le_zero.mp hlen)
    subst h
    rw [resolveLoop]
    simp
  | succ n ih =>
    intro remaining completed hlen
    rcases eq_or_ne remaining [] with h | h
    · subst h
      rw [resolveLoop]
      simp
    · rw [resolveLoop, dif_neg h]
      by_cases hc : remaining.filter (depsMet completed) = []
      · rw [dif_pos hc]
        simp
      · rw [dif_neg hc]
        have hlt := length_filter_not_lt (depsMet completed) remaining hc
        have hperm := ih (remaining.filter fun c => !(depsMet completed c))
          (completed ++ (remaining.filter (depsMet completed)).map fun c => c.task.subtask_id)
          (by omega)
        simp only [List.flatten_cons]
        exact (List.Perm.append_left _ hperm).trans (List.filter_append_perm _ remaining)

/-- Nonempty input always yields at least one wave. -/
theorem resolveLoop_ne_nil (remaining : List SubagentConfig) (completed : List String)
    (h : remaining ≠ []) : resolveLoop remaining completed ≠ [] := by
  rw [resolveLoop, dif_neg h]
  by_cases hc : remaining.filter (depsMet completed) = []
  · rw [dif_pos hc]
    simp
  · rw [dif_neg hc]
    simp

/-- When the dependency relation admits a rank (acyclicity) and every
dependency refers either to an already-satisfied id or to a remaining
config, the loop never needs its forced branch and produces dependency-
ordered waves. -/
theorem resolveLoop_wavesOrdered (rank : String → Nat) :
    ∀ (n : Nat) (remaining : List SubagentConfig) (completed : List String),
      remaining.length ≤ n →
      (∀ c ∈ remaining, ∀ d ∈ c.task.dependencies,
        d ∈ completed ∨ ∃ c2 ∈ remaining, c2.task.subtask_id = d) →
      (∀ c ∈ remaining, ∀ d ∈ c.task.dependencies, rank d < rank c.task.subtask_id) →
      WavesOrdered completed (resolveLoop remaining completed) := by
  intro n
  induction n with
  | zero =>
    intro remaining completed hlen _ _
    have h : remaining = [] := List.length_eq_zero.mp (Nat.le_zero.mp hlen)
    subst h
    rw [resolveLoop]
    trivial
  | succ n ih =>
    intro remaining completed hlen hinv hrank
    rcases eq_or_ne remaining [] with h | h
    · subst h
      rw [resolveLoop]
      trivial
    · have hex : ∃ c ∈ remaining, depsMet completed c = true := by
        obtain ⟨c, hcm, hmin⟩ := exists_min_image (fun c => rank c.task.subtask_id) remaining h
        refine ⟨c, hcm, ?_⟩
        unfold depsMet
        rw [List.all_eq_true]
        intro d hd
        rcases hinv c hcm d hd with hdc | ⟨c2, hc2, hid⟩
        · exact List.elem_iff.mpr hdc
        · exfalso
          have h1 := hrank c hcm d hd
          have h2 := hmin c2 hc2
          rw [hid] at h2
          omega
      have hcne : remaining.filter (depsMet completed) ≠ [] := by
        obtain ⟨c, hcm, hpc⟩ := hex
        intro hnil
        have hmemf : c ∈ remaining.filter (depsMet completed) :=
          List.mem_filter.mpr ⟨hcm, hpc⟩
        rw [hnil] at hmemf
        simp at hmemf
      rw [resolveLoop, dif_neg h, dif_neg hcne]
      constructor
      · intro c hc d hd
        have hall := (List.mem_filter.mp hc).2
        unfold depsMet at hall
        rw [List.all_eq_true] at hall
        exact List.elem_iff.mp (hall d hd)
      · apply ih
        · have := length_filter_not_lt (depsMet completed) remaining hcne
          omega
        · intro c hc d hd
          have hcr : c ∈ remaining := (List.mem_filter.mp hc).1
          rcases hinv c hcr d hd with hdc | ⟨c2, hc2, hid⟩
          · left
            exact List.mem_append_left _ hdc
          · by_cases hp : depsMet completed c2 = true
            · left
              apply List.mem_append_right
              rw [← hid]
              exact List.mem_map_of_mem _ (List.mem_filter.mpr ⟨hc2, hp⟩)
            · right
              exact ⟨c2, List.mem_filter.mpr ⟨hc2, by simp [hp]⟩, hid⟩
        · intro c hc d hd
          exact hrank c (List.mem_filter.mp hc).1 d hd

/-- Wave-by-wave ordering implies the positional reading: every dependency
of a config in wave `k` is initially satisfied or owned by a config in a
strictly earlier wave. -/
theorem wavesOrdered_earlier :
    ∀ (ws : List (List SubagentConfig)) (completed : List String),
      WavesOrdered completed ws →
      ∀ (k : Nat) (hk : k < ws.length), ∀ c ∈ ws.get ⟨k, hk⟩,
        ∀ d ∈ c.task.dependencies,
          d ∈ completed ∨
          ∃ j, ∃ hj : j < ws.length, j < k ∧
            ∃ c2 ∈ ws.get ⟨j, hj⟩, c2.task.subtask_id = d := by
  intro ws
  induction ws with
  | nil =>
    intro completed _ k hk
    simp at hk
  | cons w rest ih =>
    intro completed hord k hk c hc d hd
    obtain ⟨h1, h2⟩ := hord
    cases k with
    | zero =>
      left
      exact h1 c hc d hd
    | succ k =>
      have hk' : k < rest.length := by simpa using hk
      have hstep := ih (completed ++ w.map fun c => c.task.subtask_id) h2 k hk' c hc d hd
      rcases hstep with hmem | ⟨j, hj, hjk, c2, hc2, hid⟩
      · rcases List.mem_append.mp hmem with hmem | hmem
        · left
          exact hmem
        · right
          obtain ⟨c2, hc2w, hid⟩ := List.mem_map.mp hmem
          exact ⟨0, by simp, Nat.succ_pos k, c2, hc2w, hid⟩
      · right
        exact ⟨j + 1, by simpa using hj, Nat.succ_lt_succ hjk, c2, hc2, hid⟩

/-! ### Subagent-manager lemmas -/

/-- `execute_parallel` returns exactly the per-config results of the
flattened execution plan, in wave order. -/
theorem executeParallel_eq (env : String → SubagentOutcome)
    (configs : List SubagentConfig) :
    executeParallel env configs
      = ((resolveWaves configs).flatten).map (executeSubagent env) := by
  unfold executeParallel
  rw [foldl_append_map]
  rfl

/-- Association-list lookup at the head key. -/
theorem lookup_cons_self {β : Type} (k : String) (v : β) (rest : List (String × β)) :
    List.lookup k ((k, v) :: rest) = some v := by
  simp [List.lookup]

/-- Association-list lookup skips a non-matching head. -/
theorem lookup_cons_ne {β : Type} (a k : String) (v : β) (rest : List (String × β))
    (h : a ≠ k) : List.lookup a ((k, v) :: rest) = List.lookup a rest := by
  have hb : (a == k) = false := by simp [h]
  simp [List.lookup, hb]

/-- After `setStatus`, the touched id maps to the new status (provided it
was tracked). -/
theorem lookup_setStatus_self :
    ∀ (m : List (String × SubagentStatus)) (id : String) (st : SubagentStatus),
      (m.lookup id).isSome → (setStatus m id st).lookup id = some st := by
  intro m id st
  induction m with
  | nil =>
    intro h
    simp [List.lookup] at h
  | cons kv rest ih =>
    intro h
    rcases kv with ⟨k, v⟩
    simp only [setStatus, List.map_cons]
    by_cases hk : k = id
    · subst hk
      rw [if_pos rfl]
      exact lookup_cons_self k st _
    · rw [if_neg hk]
      have h2 : (rest.lookup id).isSome := by
        rw [lookup_cons_ne id k v rest (Ne.symm hk)] at h
        exact h
      rw [lookup_cons_ne id k v _ (Ne.symm hk)]
      exact ih h2

/-- `setStatus` does not touch any other id. -/
theorem lookup_setStatus_other :
    ∀ (m : List (String × SubagentStatus)) (id id2 : String) (st : SubagentStatus),
      id2 ≠ id → (setStatus m id st).lookup id2 = m.lookup id2 := by
  intro m id id2 st hne
  induction m with
  | nil => simp [setStatus]
  | cons kv rest ih =>
    rcases kv with ⟨k, v⟩
    simp only [setStatus, List.map_cons]
    by_cases hk : k = id
    · subst hk
      rw [if_pos rfl]
      rw [lookup_cons_ne id2 k st _ hne, lookup_cons_ne id2 k v _ hne]
      exact ih
    · rw [if_neg hk]
      by_cases h2 : id2 = k
      · subst h2
        rw [lookup_cons_self, lookup_cons_self]
      · rw [lookup_cons_ne id2 k v _ h2, lookup_cons_ne id2 k v _ h2]
        exact ih

/-! ### Claim theorems -/

/-- C1: whenever a task processed by `run` ends with status Completed, its
`verification_attempts` list is non-empty and its last entry has
`passed = true` — Completed is set only from VerificationPassed, which is
set only when the verifier returned a passing verdict. -/
theorem c1_completion_implies_verification (env : OrchestratorEnv) (desc : String)
    (N : Nat) (h : (runTask env (mkTask desc N)).status = TaskStatus.completed) :
    (runTask env (mkTask desc N)).verification_attempts ≠ [] ∧
    ∃ r, (runTask env (mkTask desc N)).verification_attempts.getLast? = some r ∧
      r.passed = true := by
  obtain ⟨a, hroute, hname⟩ := routeTask_assigns (mkTask desc N)
  have hnb : ¬ (routeTask (mkTask desc N)).status = TaskStatus.blocked := by
    rw [hroute]; simp
  simp only [runTask] at h ⊢
  rw [if_neg hnb] at h ⊢
  exact runLoop_completed_va env _ _ (by rw [hroute]; simp) h

/-- Witness for C1: a concrete run whose worker succeeds and whose verifier
passes ends Completed, with a passing last verification record. -/
theorem c1_witness :
    (runTask envAllPass (mkTask "add a feature" 3)).status = TaskStatus.completed ∧
    ((runTask envAllPass (mkTask "add a feature" 3)).verification_attempts ≠ [] ∧
     ∃ r, (runTask envAllPass (mkTask "add a feature" 3)).verification_attempts.getLast?
        = some r ∧ r.passed = true) :=
  ⟨rfl, c1_completion_implies_verification envAllPass "add a feature" 3 rfl⟩

/-- C2: for a task with `max_attempts = N` whose worker always returns and
whose verifier always fails the verdict, `run` performs exactly N execute
attempts, ends EscalatedToHuman, and records exactly N verification
attempts — it is never retried an (N+1)-th time. -/
theorem c2_retry_bound (env : OrchestratorEnv) (desc : String) (N : Nat) (hN : 0 < N)
    (hw : ∀ n, ∃ out, env.worker n = WorkerOutcome.ok out)
    (hv : ∀ n, ∃ v, env.verifier n = VerifierOutcome.ok v ∧ v.verified = false) :
    (runTask env (mkTask desc N)).attempts = N ∧
    (runTask env (mkTask desc N)).status = TaskStatus.escalated_to_human ∧
    (runTask env (mkTask desc N)).verification_attempts.length = N := by
  obtain ⟨a, hroute, hname⟩ := routeTask_assigns (mkTask desc N)
  simp only [runTask]
  have hnb : ¬ (routeTask (mkTask desc N)).status = TaskStatus.blocked := by
    rw [hroute]; simp
  rw [if_neg hnb]
  have hag : (routeTask (mkTask desc N)).assigned_agent = some a.name := by rw [hroute]
  have hst : (routeTask (mkTask desc N)).status = TaskStatus.in_progress := by rw [hroute]
  have hat : (routeTask (mkTask desc N)).attempts = 0 := by rw [hroute]; rfl
  have hmax : (routeTask (mkTask desc N)).max_attempts = N := by rw [hroute]; rfl
  have hva : (routeTask (mkTask desc N)).verification_attempts = [] := by rw [hroute]; rfl
  have hasome : (getAgent defaultRegistry a.name).isSome := by rw [hname]; rfl
  obtain ⟨e1, e2, e3, e4⟩ := runLoop_escalates env hw hv
    ((routeTask (mkTask desc N)).max_attempts + 1) (routeTask (mkTask desc N)) a.name
    hag hasome hst (by rw [hat, hmax]; exact hN) (by rw [hat, hmax]; omega)
  refine ⟨?_, e2, ?_⟩
  · rw [e1, hmax]
  · rw [e3, hva, hmax, hat]
    simp

/-- Witness for C2: the §8 scenario, `max_attempts = 3` and a verifier that
always fails: exactly 3 cycles, escalation, 3 recorded attempts. -/
theorem c2_witness :
    (runTask envAlwaysFailVerdict (mkTask "x" 3)).attempts = 3 ∧
    (runTask envAlwaysFailVerdict (mkTask "x" 3)).status
      = TaskStatus.escalated_to_human ∧
    (runTask envAlwaysFailVerdict (mkTask "x" 3)).verification_attempts.length = 3 :=
  c2_retry_bound envAlwaysFailVerdict "x" 3 (by decide)
    (fun _ => ⟨sampleOutput, rfl⟩) (fun _ => ⟨failVerdict, rfl, rfl⟩)

/-- C3: for an acyclic dependency graph (witnessed by a rank function) whose
dependencies all refer to submitted subtasks, `_resolve_dependencies`
returns waves whose concatenation is a permutation of the input and in
which every dependency is owned by a config in a strictly earlier wave. -/
theorem c3_wave_partition (configs : List SubagentConfig) (rank : String → Nat)
    (hacyc : ∀ c ∈ configs, ∀ d ∈ c.task.dependencies, rank d < rank c.task.subtask_id)
    (hclosed : ∀ c ∈ configs, ∀ d ∈ c.task.dependencies,
      ∃ c2 ∈ configs, c2.task.subtask_id = d) :
    ((resolveWaves configs).flatten).Perm configs ∧
    (∀ (k : Nat) (hk : k < (resolveWaves configs).length),
      ∀ c ∈ (resolveWaves configs).get ⟨k, hk⟩,
        ∀ d ∈ c.task.dependencies,
          ∃ j, ∃ hj : j < (resolveWaves configs).length, j < k ∧
            ∃ c2 ∈ (resolveWaves configs).get ⟨j, hj⟩, c2.task.subtask_id = d) := by
  constructor
  · exact resolveLoop_flatten_perm configs.length configs [] (le_refl _)
  · have hord := resolveLoop_wavesOrdered rank configs.length configs [] (le_refl _)
      (by intro c hc d hd; right; exact hclosed c hc d hd) hacyc
    intro k hk c hc d hd
    rcases wavesOrdered_earlier (resolveWaves configs) [] hord k hk c hc d hd with
      hmem | hrest
    · simp at hmem
    · exact hrest

/-- Witness for C3: the §8 example — A and B without dependencies, C
depending on both — resolves to `[[A, B], [C]]` and satisfies the
partition/ordering properties. -/
theorem c3_witness :
    resolveWaves [cfgA, cfgB, cfgC] = [[cfgA, cfgB], [cfgC]] ∧
    (((resolveWaves [cfgA, cfgB, cfgC]).flatten).Perm [cfgA, cfgB, cfgC] ∧
     (∀ (k : Nat) (hk : k < (resolveWaves [cfgA, cfgB, cfgC]).length),
       ∀ c ∈ (resolveWaves [cfgA, cfgB, cfgC]).get ⟨k, hk⟩,
         ∀ d ∈ c.task.dependencies,
           ∃ j, ∃ hj : j < (resolveWaves [cfgA, cfgB, cfgC]).length, j < k ∧
             ∃ c2 ∈ (resolveWaves [cfgA, cfgB, cfgC]).get ⟨j, hj⟩,
               c2.task.subtask_id = d)) := by
  constructor
  · unfold resolveWaves
    simp +decide [resolveLoop, depsMet, cfgA, cfgB, cfgC, mkCfg]
  · exact c3_wave_partition [cfgA, cfgB, cfgC] rankABC (by decide) (by decide)

/-- C4 counterexample: on the empty input the loop body never runs and the
returned wave sequence is empty, refuting "always ... non-empty". -/
theorem c4_counterexample : resolveWaves ([] : List SubagentConfig) = [] := by
  rw [resolveWaves, resolveLoop]
  rfl

/-- C4 (amended): `_resolve_dependencies` terminates on every input — it is
a total function here — and returns waves that exactly partition the input;
the sequence is non-empty whenever the input is non-empty (on the empty
input it is empty). -/
theorem c4_no_deadlock (configs : List SubagentConfig) (h : configs ≠ []) :
    ((resolveWaves configs).flatten).Perm configs ∧ resolveWaves configs ≠ [] :=
  ⟨resolveLoop_flatten_perm configs.length configs [] (le_refl _),
   resolveLoop_ne_nil configs [] h⟩

/-- Witness for C4 on a dependency cycle: X and Y depend on each other, the
loop forces them into one final wave and still covers the input. -/
theorem c4_witness :
    resolveWaves [cfgCycX, cfgCycY] = [[cfgCycX, cfgCycY]] ∧
    (((resolveWaves [cfgCycX, cfgCycY]).flatten).Perm [cfgCycX, cfgCycY] ∧
      resolveWaves [cfgCycX, cfgCycY] ≠ []) := by
  constructor
  · unfold resolveWaves
    simp +decide [resolveLoop, depsMet, cfgCycX, cfgCycY, mkCfg]
  · exact c4_no_deadlock [cfgCycX, cfgCycY] (by decide)

/-- C5 counterexample: a worker that raises on attempt 1 and succeeds on
attempt 2 (with a passing verifier) ends Completed after 2 attempts — the
execution error was retried by the run loop and the task did not keep
terminal status Failed. -/
theorem c5_counterexample :
    (runTask envWorkerRaisesOnce (mkTask "x" 3)).status = TaskStatus.completed ∧
    (runTask envWorkerRaisesOnce (mkTask "x" 3)).attempts = 2 ∧
    (runTask envWorkerRaisesOnce (mkTask "x" 3)).error_history
      = ["Execution error: boom"] :=
  ⟨rfl, rfl, rfl⟩

/-- C5 (amended): on a worker exception the error is recorded and the task
moves to Failed for that attempt without reaching verification, and the
exception is not propagated; however the run loop retries execution while
attempts remain, so a task whose worker raises on every attempt ends Failed
after exactly `max_attempts` attempts, with one recorded execution error
per attempt and no verification attempts. -/
theorem c5_execution_error (env : OrchestratorEnv) (desc : String) (N : Nat)
    (hN : 0 < N) (hw : ∀ n, ∃ e, env.worker n = WorkerOutcome.err e) :
    (runTask env (mkTask desc N)).status = TaskStatus.failed ∧
    (runTask env (mkTask desc N)).attempts = N ∧
    (runTask env (mkTask desc N)).verification_attempts = [] ∧
    (runTask env (mkTask desc N)).error_history.length = N := by
  obtain ⟨a, hroute, hname⟩ := routeTask_assigns (mkTask desc N)
  simp only [runTask]
  have hnb : ¬ (routeTask (mkTask desc N)).status = TaskStatus.blocked := by
    rw [hroute]; simp
  rw [if_neg hnb]
  have hag : (routeTask (mkTask desc N)).assigned_agent = some a.name := by rw [hroute]
  have hst : (routeTask (mkTask desc N)).status = TaskStatus.in_progress := by rw [hroute]
  have hat : (routeTask (mkTask desc N)).attempts = 0 := by rw [hroute]; rfl
  have hmax : (routeTask (mkTask desc N)).max_attempts = N := by rw [hroute]; rfl
  have hva : (routeTask (mkTask desc N)).verification_attempts = [] := by rw [hroute]; rfl
  have heh : (routeTask (mkTask desc N)).error_history = [] := by rw [hroute]; rfl
  have hasome : (getAgent defaultRegistry a.name).isSome := by rw [hname]; rfl
  obtain ⟨e1, e2, e3, e4⟩ := runLoop_worker_raises env hw
    ((routeTask (mkTask desc N)).max_attempts + 1) (routeTask (mkTask desc N)) a.name
    hag hasome (Or.inl hst) (by rw [hat, hmax]; omega) (by rw [hat, hmax]; omega)
  refine ⟨?_, ?_, ?_, ?_⟩
  · rw [e2, hat, hmax, if_pos hN]
  · rw [e1, hmax]
  · rw [e3, hva]
  · rw [e4, heh, hmax, hat]
    simp

/-- Witness for C5 (amended): a worker raising on both attempts of a
2-attempt task yields Failed, 2 attempts, no verification, 2 errors. -/
theorem c5_witness :
    (runTask envWorkerAlwaysRaises (mkTask "x" 2)).status = TaskStatus.failed ∧
    (runTask envWorkerAlwaysRaises (mkTask "x" 2)).attempts = 2 ∧
    (runTask envWorkerAlwaysRaises (mkTask "x" 2)).verification_attempts = [] ∧
    (runTask envWorkerAlwaysRaises (mkTask "x" 2)).error_history.length = 2 :=
  c5_execution_error envWorkerAlwaysRaises "x" 2 (by decide)
    (fun _ => ⟨"boom", rfl⟩)

/-- C6: in `execute_parallel` a per-task failure never aborts the batch:
every config contributes exactly its own result (the batch maps each
flattened-plan config through `_execute_subagent`), a timed-out subtask
yields a Failed result with the timeout-specific message, a raising subtask
yields a Failed result carrying the exception text, and a config's result
depends only on its own outcome. -/
theorem c6_failure_isolation (env : String → SubagentOutcome)
    (configs : List SubagentConfig) :
    (executeParallel env configs).length = configs.length ∧
    (∀ c ∈ configs, executeSubagent env c ∈ executeParallel env configs) ∧
    (∀ c : SubagentConfig, env c.task.subtask_id = SubagentOutcome.timeout →
      executeSubagent env c =
        { subtask_id := c.task.subtask_id, agent_id := "unknown",
          agent_type := c.agent_type, status := SubagentStatus.failed,
          result := none,
          error := some ("Timeout after " ++ toString c.timeout_seconds ++ "s") }) ∧
    (∀ (c : SubagentConfig) (e : String), env c.task.subtask_id = SubagentOutcome.err e →
      executeSubagent env c =
        { subtask_id := c.task.subtask_id, agent_id := "unknown",
          agent_type := c.agent_type, status := SubagentStatus.failed,
          result := none, error := some e }) ∧
    (∀ (env2 : String → SubagentOutcome) (c : SubagentConfig),
      env c.task.subtask_id = env2 c.task.subtask_id →
      executeSubagent env c = executeSubagent env2 c) := by
  refine ⟨?_, ?_, ?_, ?_, ?_⟩
  · rw [executeParallel_eq, List.length_map]
    exact (resolveLoop_flatten_perm configs.length configs [] (le_refl _)).length_eq
  · intro c hc
    rw [executeParallel_eq]
    exact List.mem_map_of_mem _
      (((resolveLoop_flatten_perm configs.length configs [] (le_refl _)).mem_iff).mpr hc)
  · intro c ht
    simp [executeSubagent, ht]
  · intro c e he
    simp [executeSubagent, he]
  · intro env2 c hsame
    unfold executeSubagent
    rw [hsame]

/-- Witness for C6: in a batch where A times out and B raises, the batch
still has one result per config and A's result carries the default
300-second timeout message. -/
theorem c6_witness :
    (executeParallel subagentEnvSample [cfgA, cfgB, cfgC]).length = 3 ∧
    executeSubagent subagentEnvSample cfgA =
      { subtask_id := "A", agent_id := "unknown", agent_type := "backend",
        status := SubagentStatus.failed, result := none,
        error := some "Timeout after 300s" } :=
  ⟨(c6_failure_isolation subagentEnvSample [cfgA, cfgB, cfgC]).1,
   (c6_failure_isolation subagentEnvSample [cfgA, cfgB, cfgC]).2.2.1 cfgA rfl⟩

/-- C7 counterexample: when the verifier raises, no `VerificationAttempt`
record is appended (the append sits after the verifier call inside the same
`try`), refuting "appends exactly one record ... whether ... the verifier
itself raised an exception"; the status does become VerificationFailed. -/
theorem c7_counterexample :
    (verifyTask envVerifierRaises taskAwaitingVerification).verification_attempts
      = [] ∧
    (verifyTask envVerifierRaises taskAwaitingVerification).status
      = TaskStatus.verification_failed :=
  ⟨rfl, rfl⟩

/-- C7 (amended): when the verifier returns a verdict (pass or fail) the
verification step appends exactly one record whose `passed` mirrors the
verdict; when the verifier raises, no record is appended, the error is
recorded in `error_history`, and the outcome is still treated as a
verification failure (status VerificationFailed). -/
theorem c7_verification_audit (env : OrchestratorEnv) (t : TaskState) :
    (∀ v : VerifierVerdict, env.verifier t.attempts = VerifierOutcome.ok v →
      (verifyTask env t).verification_attempts
        = t.verification_attempts ++
          [({ attempt_number := t.verification_attempts.length + 1
              verifier_id := v.verifier_id
              passed := v.verified
              evidence_count := v.evidence_count
              failures := v.failure_reasons } : VerificationAttempt)] ∧
      (verifyTask env t).status
        = (if v.verified then TaskStatus.verification_passed
           else TaskStatus.verification_failed)) ∧
    (∀ e : String, env.verifier t.attempts = VerifierOutcome.err e →
      (verifyTask env t).verification_attempts = t.verification_attempts ∧
      (verifyTask env t).status = TaskStatus.verification_failed ∧
      (verifyTask env t).error_history
        = t.error_history ++ ["Verification error: " ++ e]) := by
  constructor
  · intro v hv
    by_cases hb : v.verified = true
    · rw [verifyTask_ok_true env t v hv hb, hb]
      exact ⟨rfl, rfl⟩
    · have hb2 : v.verified = false := Bool.not_eq_true _ ▸ hb
      rw [verifyTask_ok_false env t v hv hb2, hb2]
      exact ⟨rfl, rfl⟩
  · intro e he
    rw [verifyTask_err env t e he]
    exact ⟨rfl, rfl, rfl⟩

/-- Witness for C7 (amended): a raising verifier marks the task
verification-failed and records the error, appending no attempt record. -/
theorem c7_witness :
    (verifyTask envVerifierRaises taskAwaitingVerification).verification_attempts
        = taskAwaitingVerification.verification_attempts ∧
    (verifyTask envVerifierRaises taskAwaitingVerification).status
        = TaskStatus.verification_failed ∧
    (verifyTask envVerifierRaises taskAwaitingVerification).error_history
        = taskAwaitingVerification.error_history
          ++ ["Verification error: verifier crashed"] :=
  (c7_verification_audit envVerifierRaises taskAwaitingVerification).2
    "verifier crashed" rfl

/-- C8: on the default registry, `get_agent_for_category` returns some agent
for every category string, and a category absent from the mapping falls
back to the registered "general" agent. -/
theorem c8_dispatch_total (category : String) :
    (getAgentForCategory defaultRegistry category).isSome ∧
    (List.lookup category defaultRegistry.category_mapping = none →
      getAgentForCategory defaultRegistry category = some generalAgent) := by
  constructor
  · rcases h : List.lookup category defaultRegistry.category_mapping with _ | name
    · unfold getAgentForCategory
      rw [h]
      rfl
    · rcases lookup_defaultMapping category name h with rfl | rfl | rfl | rfl | rfl <;>
        · unfold getAgentForCategory
          rw [h]
          rfl
  · intro h
    unfold getAgentForCategory
    rw [h]
    rfl

/-- Witness for C8: an unmapped category resolves to the general agent. -/
theorem c8_witness :
    (getAgentForCategory defaultRegistry "quantum").isSome ∧
    getAgentForCategory defaultRegistry "quantum" = some generalAgent :=
  ⟨(c8_dispatch_total "quantum").1, (c8_dispatch_total "quantum").2 rfl⟩

/-- C9 counterexample: cancelling an already-Cancelled subtask returns True
(the source checks only COMPLETED and FAILED as terminal), refuting
"returns False ... when ... Completed, Failed, or Cancelled". -/
theorem c9_counterexample :
    cancelSubagent [("s1", SubagentStatus.cancelled)] "s1"
      = (true, [("s1", SubagentStatus.cancelled)]) :=
  rfl

/-- C9 (amended): `cancel_subagent` returns False and changes nothing when
the id is unknown or the tracked status is Completed or Failed; in every
other case — including an already-Cancelled subtask, whose state is left
unchanged but which still reports True — it sets the tracked status to
Cancelled, leaves every other entry unchanged, and returns True. -/
theorem c9_cancel_semantics (m : List (String × SubagentStatus)) (subtask_id : String) :
    (m.lookup subtask_id = none → cancelSubagent m subtask_id = (false, m)) ∧
    (∀ st, m.lookup subtask_id = some st →
      (st = SubagentStatus.completed ∨ st = SubagentStatus.failed) →
      cancelSubagent m subtask_id = (false, m)) ∧
    (∀ st, m.lookup subtask_id = some st →
      ¬ (st = SubagentStatus.completed ∨ st = SubagentStatus.failed) →
      (cancelSubagent m subtask_id).1 = true ∧
      ((cancelSubagent m subtask_id).2).lookup subtask_id
        = some SubagentStatus.cancelled ∧
      ∀ id2, id2 ≠ subtask_id →
        ((cancelSubagent m subtask_id).2).lookup id2 = m.lookup id2) := by
  refine ⟨?_, ?_, ?_⟩
  · intro h
    unfold cancelSubagent
    rw [h]
  · intro st h hterm
    unfold cancelSubagent
    simp only [h]
    rw [if_pos hterm]
  · intro st h hterm
    unfold cancelSubagent
    simp only [h]
    rw [if_neg hterm]
    refine ⟨rfl, ?_, ?_⟩
    · exact lookup_setStatus_self m subtask_id SubagentStatus.cancelled (by rw [h]; rfl)
    · intro id2 hne
      exact lookup_setStatus_other m subtask_id id2 SubagentStatus.cancelled hne

/-- Witness for C9 (amended): cancelling a running subtask flips exactly its
own status to Cancelled and returns True, leaving a sibling untouched. -/
theorem c9_witness :
    (cancelSubagent [("s1", SubagentStatus.running), ("s2", SubagentStatus.completed)]
        "s1").1 = true ∧
    ((cancelSubagent [("s1", SubagentStatus.running), ("s2", SubagentStatus.completed)]
        "s1").2).lookup "s1" = some SubagentStatus.cancelled ∧
    ((cancelSubagent [("s1", SubagentStatus.running), ("s2", SubagentStatus.completed)]
        "s1").2).lookup "s2" = some SubagentStatus.completed := by
  obtain ⟨h1, h2, h3⟩ :=
    (c9_cancel_semantics [("s1", SubagentStatus.running), ("s2", SubagentStatus.completed)]
      "s1").2.2 SubagentStatus.running rfl (by decide)
  exact ⟨h1, h2, (h3 "s2" (by decide)).trans rfl⟩

/-- C10: with the default registry the Blocked branch of routing is
unreachable — `_categorize_task` always returns one of the five categories,
routing always assigns a worker (status in-progress, agent set), and no
task submitted through `run` ever acquires status Blocked. -/
theorem c10_blocked_unreachable (env : OrchestratorEnv) (desc : String) (N : Nat) :
    categorizeTask desc ∈ ["frontend", "backend", "database", "devops", "general"] ∧
    (routeTask (mkTask desc N)).status = TaskStatus.in_progress ∧
    ((routeTask (mkTask desc N)).assigned_agent).isSome ∧
    (runTask env (mkTask desc N)).status ≠ TaskStatus.blocked := by
  obtain ⟨a, hroute, hname⟩ := routeTask_assigns (mkTask desc N)
  have hnb : ¬ (routeTask (mkTask desc N)).status = TaskStatus.blocked := by
    rw [hroute]; simp
  refine ⟨categorizeTask_mem desc, by rw [hroute], by rw [hroute]; rfl, ?_⟩
  simp only [runTask]
  rw [if_neg hnb]
  exact runLoop_ne_blocked env _ _ hnb
